import Mathlib

/-!
Verification development for the Terraform RAG pipeline
(`rag_loader.py` / `backend.py`).

Strings from the Python source are modelled as `List Char`.  Python's
`str.strip`, `str.lower`, slicing, and the concrete regular expressions used
by the source are embedded as executable Lean functions, translated
clause-by-clause from the source.
-/

namespace TerraformRag

/-- Characters removed by Python's `str.strip()` and matched by the regex
class `\s` (ASCII range, which is all the source data uses). -/
def isPySpace (c : Char) : Bool :=
  c = ' ' || c = '\t' || c = '\n' || c = '\r' || c = '\x0b' || c = '\x0c'

/-- Python `s.strip()`: drop leading and trailing whitespace. -/
def pyStrip (l : List Char) : List Char :=
  ((l.dropWhile isPySpace).reverse.dropWhile isPySpace).reverse

/-- The character list of a string literal. -/
def chars (s : String) : List Char := s.data

/-- Last `n` characters of a list (all of it when shorter than `n`);
this is Python `l[-n:]` for `n > 0`. -/
def takeLast (n : Nat) (l : List Char) : List Char := l.drop (l.length - n)

/-- Python slice `l[-n:]` including the `n = 0` corner case, where `l[-0:]`
is the whole list. -/
def pySliceLast (n : Nat) (l : List Char) : List Char :=
  if n = 0 then l else takeLast n l

/-- The character class `[^"]` of the regex, as a predicate. -/
def notQuote (c : Char) : Bool := c ≠ '"'

/-- Python `str.lower()` on the ASCII data the source handles. -/
def pyLower (l : List Char) : List Char := l.map Char.toLower

/- ### `_identify_chunk_type` (rag_loader.py lines 220-249) -/

/-- `_identify_chunk_type(chunk)`: the source lowercases, strips, and walks
an if/elif chain of `startswith` tests, returning `"general"` otherwise. -/
def identify_chunk_type (chunk : List Char) : List Char :=
  let chunk_lower := pyStrip (pyLower chunk)
  if (chars "resource").isPrefixOf chunk_lower then chars "resource"
  else if (chars "data").isPrefixOf chunk_lower then chars "data_source"
  else if (chars "variable").isPrefixOf chunk_lower then chars "variable"
  else if (chars "output").isPrefixOf chunk_lower then chars "output"
  else if (chars "provider").isPrefixOf chunk_lower then chars "provider"
  else if (chars "terraform").isPrefixOf chunk_lower then chars "terraform_config"
  else if (chars "module").isPrefixOf chunk_lower then chars "module"
  else if (chars "locals").isPrefixOf chunk_lower then chars "locals"
  else chars "general"

/-- Modelled from the spec's words (§4.3): the priority table
"resource, data_source (from `data`), variable, output, provider,
terraform_config (from `terraform`), module, locals; otherwise `general`",
as a first-match lookup, to be compared with `identify_chunk_type`. -/
def chunkKindTable : List (List Char × List Char) :=
  [ (chars "resource", chars "resource")
  , (chars "data", chars "data_source")
  , (chars "variable", chars "variable")
  , (chars "output", chars "output")
  , (chars "provider", chars "provider")
  , (chars "terraform", chars "terraform_config")
  , (chars "module", chars "module")
  , (chars "locals", chars "locals") ]

/-- Spec-side classifier: first table entry whose key prefixes the
lowercased, trimmed fragment, else `"general"`. -/
def identify_chunk_type_spec (chunk : List Char) : List Char :=
  match chunkKindTable.find? (fun p => p.1.isPrefixOf (pyStrip (pyLower chunk))) with
  | some p => p.2
  | none => chars "general"

/-- The nine chunk kinds of the data model (§3). -/
def nineKinds : List (List Char) :=
  [ chars "resource", chars "data_source", chars "variable", chars "output"
  , chars "provider", chars "terraform_config", chars "module", chars "locals"
  , chars "general" ]

/- ### The boundary regex of `_terraform_aware_split` (rag_loader.py line 176)

`block_pattern` is
`((?:resource|data|variable|output|provider|terraform|locals|module)\s*"[^"]*"\s*\{|terraform\s*\{)`.
None of the eight keywords is a prefix of another and each required literal
(`"`, `{`) is excluded from the class preceding it, so the regex is
deterministic: at a given position it matches a unique span or fails. -/

/-- Keyword alternation of `block_pattern`, in the source's order. -/
def blockKeywords : List (List Char) :=
  [ chars "resource", chars "data", chars "variable", chars "output"
  , chars "provider", chars "terraform", chars "locals", chars "module" ]

/-- First keyword of `ks` that prefixes `l`, with the rest of `l` after it. -/
def findKw : List (List Char) → List Char → Option (List Char × List Char)
  | [], _ => none
  | k :: ks, l => if k.isPrefixOf l then some (k, l.drop k.length) else findKw ks l

/-- Continuation `\s*"[^"]*"\s*\{` of the first alternative: returns the rest
of the input after the opening brace when it matches. -/
def matchLabelBrace (l : List Char) : Option (List Char) :=
  match l.dropWhile isPySpace with
  | [] => none
  | c1 :: l2 =>
    if c1 = '"' then
      match l2.dropWhile notQuote with
      | [] => none
      | c2 :: l4 =>
        if c2 = '"' then
          match l4.dropWhile isPySpace with
          | [] => none
          | c3 :: l6 => if c3 = '{' then some l6 else none
        else none
    else none

/-- Continuation `\s*\{` of the second alternative `terraform\s*\{`. -/
def matchBraceOnly (l : List Char) : Option (List Char) :=
  match l.dropWhile isPySpace with
  | [] => none
  | c1 :: l2 => if c1 = '{' then some l2 else none

/-- Match `block_pattern` at the start of `l` (the semantics of
`re.match(block_pattern, l)`): returns the input remaining after the match.
The engine tries the quoted-label alternative first and falls back to the
bare `terraform\s*\{` alternative. -/
def matchBoundary (l : List Char) : Option (List Char) :=
  match findKw blockKeywords l with
  | none => none
  | some (k, r) =>
    match matchLabelBrace r with
    | some r2 => some r2
    | none => if k = chars "terraform" then matchBraceOnly r else none

/- ### `re.split(f'({block_pattern})', content)` (rag_loader.py line 177)

The split pattern wraps `block_pattern` — itself already one capture group —
in a second capture group, and `re.split` inserts EVERY capture group into
its output, so each boundary match appears twice in the returned list.
`splitScanAux` scans left to right, accumulating non-matching text; the fuel
argument is the input length, which always suffices because a match consumes
at least one character (`matchBoundary_length`). -/
def splitScanAux : Nat → List Char → List (List Char)
  | _, [] => [[]]
  | 0, l => [l]
  | fuel + 1, c :: rest =>
    match matchBoundary (c :: rest) with
    | some r =>
      let m := (c :: rest).take ((c :: rest).length - r.length)
      [] :: m :: m :: splitScanAux fuel r
    | none =>
      match splitScanAux fuel rest with
      | [] => [[c]]
      | p :: ps => (c :: p) :: ps

/-- The block list the source iterates over: `re.split(f'({block_pattern})',
content)` with both capture groups echoed into the output. -/
def splitScanList (content : List Char) : List (List Char) :=
  splitScanAux content.length content

/- ### `_terraform_aware_split` (rag_loader.py lines 154-218) -/

/-- Which of the three `chunks.append(current_chunk.strip())` sites emitted a
fragment: the boundary-driven flush (line 190), the size-driven flush
(line 201), or the end-of-input flush (line 210). -/
inductive FlushKind where
  | boundary : FlushKind
  | size : FlushKind
  | final : FlushKind
deriving DecidableEq, Repr

/-- Loop state of `_terraform_aware_split`: the emitted chunks (tagged with
their flush site and kept UNstripped; the source appends
`current_chunk.strip()`, recovered below by mapping `pyStrip`) and the
accumulating `current_chunk`. -/
structure ChState where
  chunks : List (FlushKind × List Char)
  current : List Char
deriving Repr

/-- `current_chunk.strip()` is appended only when truthy; `none` when the
strip is empty. -/
def flushed (k : FlushKind) (st : ChState) : List (FlushKind × List Char) :=
  if pyStrip st.current = [] then st.chunks else st.chunks ++ [(k, st.current)]

/-- One iteration of the `for i, block in enumerate(blocks)` loop
(rag_loader.py lines 181-206).  `len(current_chunk) > chunk_size * 0.7` is
modelled as `7 * chunkSize < 10 * len` (exact for the chunk sizes used in
this file), and `len(potential_chunk) > chunk_size` is an integer
comparison in the source. -/
def processBlock (chunkSize chunkOverlap : Nat) (st : ChState)
    (block : List Char) : ChState :=
  if pyStrip block = [] then st
  else if (matchBoundary (pyStrip block)).isSome then
    if 7 * chunkSize < 10 * st.current.length then
      { chunks := flushed FlushKind.boundary st, current := block }
    else
      { st with current := st.current ++ block }
  else
    let potential_chunk := st.current ++ block
    if chunkSize < potential_chunk.length then
      let overlap_text :=
        if chunkOverlap < st.current.length then pySliceLast chunkOverlap st.current
        else st.current
      { chunks := flushed FlushKind.size st, current := overlap_text ++ block }
    else
      { st with current := potential_chunk }

/-- The chunk list of `_terraform_aware_split` before the ≥50-character
cleanup, tagged with flush sites and with the pre-`strip()` buffers. -/
def tfSplitTagged (content : List Char) (chunkSize chunkOverlap : Nat) :
    List (FlushKind × List Char) :=
  let st := (splitScanList content).foldl (processBlock chunkSize chunkOverlap)
    { chunks := [], current := [] }
  flushed FlushKind.final st

/-- The `chunks` list of the source (each entry emitted as
`current_chunk.strip()`). -/
def tfSplitChunks (content : List Char) (chunkSize chunkOverlap : Nat) :
    List (List Char) :=
  (tfSplitTagged content chunkSize chunkOverlap).map (fun p => pyStrip p.2)

/-- `_terraform_aware_split(content, chunk_size, chunk_overlap)`: cleanup
keeps chunks longer than 50 characters and falls back to `[content]` when
nothing survives (rag_loader.py lines 212-218). -/
def terraform_aware_split (content : List Char) (chunkSize chunkOverlap : Nat) :
    List (List Char) :=
  let cleaned_chunks := (tfSplitChunks content chunkSize chunkOverlap).filter
    (fun c => 50 < c.length)
  if cleaned_chunks = [] then [content] else cleaned_chunks

/- ### Documents and `split_documents` (rag_loader.py lines 104-152) -/

/-- A loaded LangChain `Document` restricted to the metadata the pipeline
reads: `page_content`, `source`, `file_type`. -/
structure LoadedDoc where
  page_content : List Char
  source : List Char
  file_type : List Char
deriving Repr, DecidableEq

/-- A chunk `Document` produced by `split_documents`, with the extra
`chunk` index and `chunk_type` metadata (rag_loader.py lines 141-150). -/
structure SplitDoc where
  page_content : List Char
  source : List Char
  file_type : List Char
  chunk : Nat
  chunk_type : List Char
deriving Repr, DecidableEq

/-- The condition on line 125 choosing Terraform-aware chunking:
`file_type == 'terraform' and source.endswith('.tf')`. -/
def usesTerraformSplit (d : LoadedDoc) : Bool :=
  d.file_type = chars "terraform" && (chars ".tf").isSuffixOf d.source

/-- `split_documents` over an explicit document list.  `flatSplit` stands in
for the external `RecursiveCharacterTextSplitter.split_text` used for
non-`.tf` documents (an imported library, out of scope per spec §1). -/
def split_documents (flatSplit : List Char → List (List Char))
    (docs : List LoadedDoc) (chunkSize chunkOverlap : Nat) : List SplitDoc :=
  docs.flatMap (fun d =>
    let chunkList :=
      if usesTerraformSplit d then terraform_aware_split d.page_content chunkSize chunkOverlap
      else flatSplit d.page_content
    chunkList.enum.map (fun p =>
      { page_content := p.2, source := d.source, file_type := d.file_type
        chunk := p.1, chunk_type := identify_chunk_type p.2 }))

/-- The zero-fragment guard of `create_vector_store`
(rag_loader.py lines 264-265): `if not split_docs: raise ValueError(...)`. -/
def create_vector_store_guard (split_docs : List SplitDoc) :
    Except (List Char) (List SplitDoc) :=
  if split_docs = [] then Except.error (chars "No documents to create vector store")
  else Except.ok split_docs

/- ### `retrieve_context` (rag_loader.py lines 296-347) -/

/-- Retrieved-document metadata as read through `metadata.get(key, default)`:
absent keys yield the default. -/
structure RMeta where
  source : Option (List Char)
  file_type : Option (List Char)
  chunk_type : Option (List Char)
  chunk : Option Nat
  page : Option Nat
deriving Repr, DecidableEq

/-- A document as returned by the retriever. -/
structure RDoc where
  page_content : List Char
  metadata : RMeta
deriving Repr, DecidableEq

/-- Decimal digits of a number, for f-string interpolation of `page` and
`len(relevant_docs)`. -/
def natChars (n : Nat) : List Char := (Nat.repr n).data

/-- The sentinel returned when retrieval produced no documents
(rag_loader.py line 319). -/
def sentinel : List Char :=
  chars "No relevant Terraform configuration found for this query."

/-- The provenance header of one retrieved document
(rag_loader.py lines 325-337). -/
def contextHeader (d : RDoc) : List Char :=
  let source := d.metadata.source.getD (chars "unknown")
  let file_type := d.metadata.file_type.getD (chars "unknown")
  let chunk_type := d.metadata.chunk_type.getD (chars "general")
  match d.metadata.page with
  | some p =>
    if file_type = chars "pdf" then
      chars "[From " ++ source ++ chars " (PDF) - Page " ++ natChars p ++ chars "]"
    else chars "[From " ++ source ++ chars " - " ++ chunk_type ++ chars "]"
  | none =>
    if file_type = chars "pdf" then chars "[From " ++ source ++ chars " (PDF)]"
    else chars "[From " ++ source ++ chars " - " ++ chunk_type ++ chars "]"

/-- `retrieve_context` given the documents the retriever returned:
the sentinel for an empty result, otherwise the headed fragments joined
with `\n\n---\n\n` under a count banner (rag_loader.py lines 314-347). -/
def retrieve_context (docs : List RDoc) : List Char :=
  if docs = [] then sentinel
  else
    let context_parts := docs.map (fun d => contextHeader d ++ chars "\n" ++ d.page_content)
    let combined_context := List.intercalate (chars "\n\n---\n\n") context_parts
    chars "Retrieved " ++ natChars docs.length ++
      chars " relevant document(s) from Terraform files and documentation:\n\n" ++
      combined_context

/- ### `generate_response` (backend.py lines 136-178) -/

/-- What `generate_response` does after retrieving `context`: either it
returns the fixed refusal without running `rag_chain`, or it runs
`rag_chain.run(context=..., question=...)`. -/
inductive GenOutcome where
  | refusal : GenOutcome
  | invoked : List Char → List Char → GenOutcome
deriving Repr, DecidableEq

/-- The fixed refusal text of backend.py line 165. -/
def refusal_message : List Char :=
  chars "I cannot answer this question as it is not covered in the provided Terraform files. Please ask about resources and configurations defined in your GCP Terraform files."

/-- The marker backend.py line 163 looks for with the Python `in` operator:
`"No relevant Terraform configuration found" in context`. -/
def no_context_marker : List Char :=
  chars "No relevant Terraform configuration found"

/-- Python's substring operator `needle in haystack`: the needle occurs as a
contiguous run somewhere in the haystack. -/
def pyInStr (needle : List Char) : List Char → Bool
  | [] => needle.isPrefixOf []
  | c :: rest => needle.isPrefixOf (c :: rest) || pyInStr needle rest

/-- The branch on backend.py lines 163-171: substring containment of the
marker decides between refusal and invoking the generator chain. -/
def generate_response_step (context question : List Char) : GenOutcome :=
  if pyInStr no_context_marker context then GenOutcome.refusal
  else GenOutcome.invoked context question

/-- `generate_response` with the retriever's result made explicit:
`context = retrieve_context(user_input, k=6)` then the marker branch. -/
def generate_response_from (docs : List RDoc) (question : List Char) : GenOutcome :=
  generate_response_step (retrieve_context docs) question

/- ### `load_terraform_files` (rag_loader.py lines 39-102)

The surrounding filesystem and PDF library are external state; they are made
explicit as a record that fixes what each system call would return, and the
function's control flow is translated over it. -/

/-- One `*.tf` file of the configured directory: its name and what
`open(...).read()` would produce (`Except.error` = the read raises). -/
structure TfFile where
  name : List Char
  read_result : Except (List Char) (List Char)
deriving Repr

/-- One `*.pdf` file: what `PyPDFLoader(...).load()` would produce, a page
list on success. -/
structure PdfFile where
  name : List Char
  load_result : Except (List Char) (List (List Char))
deriving Repr

/-- The observable filesystem state of the configured directory. -/
structure TfDirState where
  dir_exists : Bool
  tf_files : List TfFile
  pdf_files : List PdfFile
  pypdf_available : Bool
deriving Repr

/-- `load_terraform_files`: directory-missing and no-supported-files checks
raise `ValueError` (lines 50-57); each `.tf` read failure is caught, printed
and skipped (lines 60-77); each PDF failure or an absent `PyPDFLoader` is
likewise skipped (lines 80-99). -/
def load_terraform_files (fs : TfDirState) : Except (List Char) (List LoadedDoc) :=
  if fs.dir_exists = false then
    Except.error (chars "Terraform directory not found")
  else if fs.tf_files.isEmpty && fs.pdf_files.isEmpty then
    Except.error (chars "No .tf or .pdf files found")
  else
    let tfDocs := fs.tf_files.filterMap (fun f =>
      match f.read_result with
      | Except.ok content =>
        some { page_content := content, source := f.name, file_type := chars "terraform" }
      | Except.error _ => none)
    let pdfDocs := fs.pdf_files.flatMap (fun f =>
      if fs.pypdf_available = false then []
      else
        match f.load_result with
        | Except.ok pages =>
          pages.map (fun p => { page_content := p, source := f.name, file_type := chars "pdf" })
        | Except.error _ => [])
    Except.ok (tfDocs ++ pdfDocs)

/- ### `get_resources_summary` (rag_loader.py lines 349-391)

The four `re.findall` patterns are `resource\s+"([^"]+)"\s+"([^"]+)"`,
`variable\s+"([^"]+)"`, `output\s+"([^"]+)"`, `provider\s+"([^"]+)"`.
Each is deterministic for the same reason as `block_pattern`, and
`re.findall` scans left to right, non-overlapping, resuming after each
match's end. -/

/-- Match `\s+"([^"]+)"` (at least one whitespace, then a non-empty quoted
name): returns the captured name and the rest after the closing quote. -/
def matchWsQuoted (l : List Char) : Option (List Char × List Char) :=
  match l with
  | [] => none
  | c0 :: _ =>
    if isPySpace c0 then
      match l.dropWhile isPySpace with
      | [] => none
      | c1 :: l2 =>
        if c1 = '"' then
          let name := l2.takeWhile notQuote
          if name = [] then none
          else
            match l2.dropWhile notQuote with
            | [] => none
            | _ :: l4 => some (name, l4)
        else none
    else none

/-- Match `kw\s+"([^"]+)"` at the start of `l`. -/
def matchKwName (kw l : List Char) : Option (List Char × List Char) :=
  if kw.isPrefixOf l then matchWsQuoted (l.drop kw.length) else none

/-- Match `resource\s+"([^"]+)"\s+"([^"]+)"` at the start of `l`. -/
def matchResourcePair (l : List Char) : Option ((List Char × List Char) × List Char) :=
  match matchKwName (chars "resource") l with
  | none => none
  | some (ty, r) =>
    match matchWsQuoted r with
    | none => none
    | some (nm, r2) => some ((ty, nm), r2)

/-- `re.findall` driver: try the matcher at every position, left to right,
resuming after each match.  Fuel is the input length; every successful match
of the matchers above consumes at least one character. -/
def findAllAux {α : Type} (m : List Char → Option (α × List Char)) :
    Nat → List Char → List α
  | _, [] => []
  | 0, _ => []
  | fuel + 1, c :: rest =>
    match m (c :: rest) with
    | some (a, r) => a :: findAllAux m fuel r
    | none => findAllAux m fuel rest

/-- All captures of matcher `m` over `content`. -/
def findAll {α : Type} (m : List Char → Option (α × List Char))
    (content : List Char) : List α :=
  findAllAux m content.length content

/-- `re.findall(r'resource\s+"([^"]+)"\s+"([^"]+)"', content)`. -/
def findAllResources (content : List Char) : List (List Char × List Char) :=
  findAll matchResourcePair content

/-- `re.findall(kw + r'\s+"([^"]+)"', content)` for the three single-name
patterns. -/
def findAllNames (kw content : List Char) : List (List Char) :=
  findAll (matchKwName kw) content

/-- `summary["resource_types"]`: a dict from type to list of names, built by
appending each `(res_type, res_name)` occurrence in scan order.  Modelled as
an insertion-ordered association list. -/
def dictAppend (d : List (List Char × List (List Char))) (k v : List Char) :
    List (List Char × List (List Char)) :=
  match d with
  | [] => [(k, [v])]
  | (k0, vs) :: rest =>
    if k0 = k then (k0, vs ++ [v]) :: rest else (k0, vs) :: dictAppend rest k v

/-- Value list of a key (empty when absent). -/
def dictGet (d : List (List Char × List (List Char))) (k : List Char) :
    List (List Char) :=
  match d with
  | [] => []
  | (k0, vs) :: rest => if k0 = k then vs else dictGet rest k

/-- `list(set(xs))` — Python's set iteration order is unspecified, so any
duplicate-free list with the same members is a faithful model; `List.dedup`
is used. -/
def pySetList (xs : List (List Char)) : List (List Char) := xs.dedup

/-- The result record of `get_resources_summary`. -/
structure ResourcesSummary where
  total_files : Nat
  resource_types : List (List Char × List (List Char))
  variables_list : List (List Char)
  outputs : List (List Char)
  providers : List (List Char)
deriving Repr

/-- `get_resources_summary` over the loaded documents' contents: resource
`(type, name)` pairs accumulate per type without deduplication; the
variable/output/provider name lists pass through `list(set(...))`
(rag_loader.py lines 386-389). -/
def get_resources_summary (docs : List (List Char)) : ResourcesSummary :=
  let entries := (docs.map findAllResources).flatten
  { total_files := docs.length
    resource_types := entries.foldl (fun d p => dictAppend d p.1 p.2) []
    variables_list := pySetList ((docs.map (findAllNames (chars "variable"))).flatten)
    outputs := pySetList ((docs.map (findAllNames (chars "output"))).flatten)
    providers := pySetList ((docs.map (findAllNames (chars "provider"))).flatten) }

/- ### Concrete fixtures used by witnesses and counterexamples -/

/-- A 70-character Terraform document consisting of a single `terraform {`
block; total length is well under the default `chunk_size = 1000`. -/
def tfBlockDoc : List Char :=
  chars "terraform \x7b\n  required_version = \">= 1.0\"\n  backend gcs is used here\n\x7d"

/-- A 101-character document: 30 characters of comment, a `terraform \x7b`
header, then 60 characters of comment body.  With `chunk_size = 60` and
`chunk_overlap = 2` the chunker flushes once by size. -/
def overlapDoc : List Char :=
  chars "## gcp project baseline notes\n" ++ chars "terraform \x7b" ++
    chars "\n# pin plugin and binary release lines for gcp usage here ok"

/-- A 62-character document containing no block-header boundary at all. -/
def plainDoc : List Char :=
  chars "# subnet ranges are pinned in this note block for gcp usage ok"

/-- The two-label block header of a realistic `resource` block. -/
def twoLabelHeader : List Char := chars "resource \"t\" \"n\" \x7b"

/-- One-label headers that the boundary regex does accept. -/
def oneLabelHeader : List Char := chars "variable \"zone\" \x7b"

/-- A retrieved fragment whose own text happens to contain the no-context
phrase, although it was really retrieved (non-empty retrieval). -/
def trickyDoc : RDoc :=
  { page_content := chars "echo msg: No relevant Terraform configuration found in module scan"
    metadata :=
      { source := some (chars "notes.tf"), file_type := some (chars "terraform")
        chunk_type := some (chars "general"), chunk := some 0, page := none } }

/-- A loaded `.tf` document, for the `split_documents` witnesses. -/
def mainTfDoc : LoadedDoc :=
  { page_content := tfBlockDoc, source := chars "main.tf", file_type := chars "terraform" }

/- ### Overlap adjacency predicates for C4 -/

/-- Adjacency property over the tagged chunk list: every chunk emitted by the
size-driven flush has a successor chunk, and the last `co` characters of its
(untrimmed) buffer are a prefix of the successor's (untrimmed) buffer. -/
def chainOK (co : Nat) : List (FlushKind × List Char) → Prop
  | [] => True
  | [(k, _)] => k ≠ FlushKind.size
  | (k, raw) :: (k2, raw2) :: rest =>
    (k = FlushKind.size → (takeLast co raw).isPrefixOf raw2 = true) ∧
    chainOK co ((k2, raw2) :: rest)

/-- Loop invariant behind `chainOK`: the property holds between already
emitted chunks, and if the most recent chunk was a size-driven flush then the
carried-over prefix sits at the head of the live buffer `current`, which
still contains a non-whitespace character (so one more chunk will follow). -/
def chainFrom (co : Nat) (current : List Char) :
    List (FlushKind × List Char) → Prop
  | [] => True
  | [(k, raw)] => k = FlushKind.size →
      ((takeLast co raw).isPrefixOf current = true ∧ pyStrip current ≠ [])
  | (k, raw) :: (k2, raw2) :: rest =>
    (k = FlushKind.size → (takeLast co raw).isPrefixOf raw2 = true) ∧
    chainFrom co current ((k2, raw2) :: rest)

/- ## Helper lemmas -/

theorem length_dropWhile_le' (p : Char → Bool) (l : List Char) :
    (l.dropWhile p).length ≤ l.length := by
  induction l with
  | nil => simp [List.dropWhile]
  | cons c t ih =>
    by_cases h : p c
    · simp only [List.dropWhile, h]
      simp only [List.length_cons]
      omega
    · simp [List.dropWhile, h]

theorem matchLabelBrace_length {l r : List Char}
    (h : matchLabelBrace l = some r) : r.length < l.length := by
  have h1 := length_dropWhile_le' isPySpace l
  cases e1 : l.dropWhile isPySpace with
  | nil => simp [matchLabelBrace, e1] at h
  | cons c1 t1 =>
    simp only [matchLabelBrace, e1] at h
    by_cases hc1 : c1 = '"'
    · simp only [hc1, if_true] at h
      have h2 := length_dropWhile_le' notQuote t1
      cases e2 : t1.dropWhile notQuote with
      | nil => simp [e2] at h
      | cons c2 t2 =>
        simp only [e2] at h
        by_cases hc2 : c2 = '"'
        · simp only [hc2, if_true] at h
          have h3 := length_dropWhile_le' isPySpace t2
          cases e3 : t2.dropWhile isPySpace with
          | nil => simp [e3] at h
          | cons c3 t3 =>
            simp only [e3] at h
            by_cases hc3 : c3 = '{'
            · simp only [hc3, if_true, Option.some.injEq] at h
              subst h
              rw [e1] at h1; rw [e2] at h2; rw [e3] at h3
              simp at h1 h2 h3; omega
            · simp [hc3] at h
        · simp [hc2] at h
    · simp [hc1] at h

theorem matchBraceOnly_length {l r : List Char}
    (h : matchBraceOnly l = some r) : r.length < l.length := by
  have h1 := length_dropWhile_le' isPySpace l
  cases e1 : l.dropWhile isPySpace with
  | nil => simp [matchBraceOnly, e1] at h
  | cons c1 t1 =>
    simp only [matchBraceOnly, e1] at h
    by_cases hc1 : c1 = '{'
    · simp only [hc1, if_true, Option.some.injEq] at h
      subst h; rw [e1] at h1; simp at h1; omega
    · simp [hc1] at h

theorem findKw_length {ks : List (List Char)} {l k r : List Char}
    (h : findKw ks l = some (k, r)) : r.length ≤ l.length := by
  induction ks with
  | nil => exact absurd h (by simp [findKw])
  | cons k0 ks ih =>
    unfold findKw at h
    by_cases hp : k0.isPrefixOf l
    · rw [if_pos hp] at h
      simp only [Option.some.injEq, Prod.mk.injEq] at h
      rcases h with ⟨_, h2⟩
      subst h2; simp
    · rw [if_neg hp] at h; exact ih h

/-- A successful `block_pattern` match consumes at least one character. -/
theorem matchBoundary_length {l r : List Char}
    (h : matchBoundary l = some r) : r.length < l.length := by
  cases ek : findKw blockKeywords l with
  | none => simp [matchBoundary, ek] at h
  | some kr =>
    obtain ⟨k, rest⟩ := kr
    simp only [matchBoundary, ek] at h
    have hk := findKw_length ek
    cases em : matchLabelBrace rest with
    | some r2 =>
      simp only [em, Option.some.injEq] at h
      subst h
      exact lt_of_lt_of_le (matchLabelBrace_length em) hk
    | none =>
      simp only [em] at h
      by_cases ht : k = chars "terraform"
      · rw [if_pos ht] at h
        exact lt_of_lt_of_le (matchBraceOnly_length h) hk
      · rw [if_neg ht] at h; exact absurd h (by simp)


theorem nil_isPrefixOf (l : List Char) : ([] : List Char).isPrefixOf l = true := by
  cases l <;> rfl

theorem isPrefixOf_self (l : List Char) : l.isPrefixOf l = true := by
  induction l with
  | nil => rfl
  | cons c t ih => simp [List.isPrefixOf, ih]

theorem isPrefixOf_append {p l : List Char} (t : List Char)
    (h : p.isPrefixOf l = true) : p.isPrefixOf (l ++ t) = true := by
  induction p generalizing l with
  | nil => exact nil_isPrefixOf _
  | cons c cs ih =>
    cases l with
    | nil => simp [List.isPrefixOf] at h
    | cons d ds =>
      simp only [List.isPrefixOf, Bool.and_eq_true, beq_iff_eq] at h
      simp only [List.cons_append, List.isPrefixOf, Bool.and_eq_true, beq_iff_eq]
      exact ⟨h.1, ih h.2⟩

/-- The overlap text the size-driven flush starts the next buffer with always
begins with the last `co` characters of the flushed buffer: the source's
slice `current_chunk[-chunk_overlap:]` is exactly those characters when the
guard `len(current_chunk) > chunk_overlap` holds and `chunk_overlap > 0`,
and the whole buffer otherwise. -/
theorem takeLast_isPrefixOf_overlap (co : Nat) (cur : List Char) :
    (takeLast co cur).isPrefixOf
      (if co < cur.length then pySliceLast co cur else cur) = true := by
  by_cases h : co < cur.length
  · rw [if_pos h]
    unfold pySliceLast
    by_cases h0 : co = 0
    · subst h0
      have ht : takeLast 0 cur = [] := by
        unfold takeLast
        rw [Nat.sub_zero, List.drop_length]
      rw [ht, if_pos rfl]
      exact nil_isPrefixOf _
    · rw [if_neg h0]
      exact isPrefixOf_self _
  · rw [if_neg h]
    have : takeLast co cur = cur := by
      unfold takeLast
      have : cur.length - co = 0 := by omega
      rw [this, List.drop_zero]
    rw [this]
    exact isPrefixOf_self _

theorem pyStrip_eq_nil_iff (l : List Char) :
    pyStrip l = [] ↔ ∀ c ∈ l, isPySpace c = true := by
  unfold pyStrip
  rw [List.reverse_eq_nil_iff, List.dropWhile_eq_nil_iff]
  constructor
  · intro h c hc
    have hsplit := List.takeWhile_append_dropWhile (p := isPySpace) (l := l)
    rw [← hsplit] at hc
    rcases List.mem_append.mp hc with h1 | h1
    · exact List.mem_takeWhile_imp h1
    · exact h c (List.mem_reverse.mpr h1)
  · intro h c hc
    refine h c ?_
    have hm := List.mem_reverse.mp hc
    rw [← List.takeWhile_append_dropWhile (p := isPySpace) (l := l)]
    exact List.mem_append.mpr (Or.inr hm)

theorem pyStrip_append_ne_nil_left {cur : List Char} (b : List Char)
    (h : pyStrip cur ≠ []) : pyStrip (cur ++ b) ≠ [] := by
  intro h0
  apply h
  rw [pyStrip_eq_nil_iff] at h0 ⊢
  intro c hc
  exact h0 c (List.mem_append.mpr (Or.inl hc))

theorem pyStrip_append_ne_nil_right {b : List Char} (x : List Char)
    (h : pyStrip b ≠ []) : pyStrip (x ++ b) ≠ [] := by
  intro h0
  apply h
  rw [pyStrip_eq_nil_iff] at h0 ⊢
  intro c hc
  exact h0 c (List.mem_append.mpr (Or.inr hc))

theorem chainFrom_extend (co : Nat) (cur b : List Char)
    (chunks : List (FlushKind × List Char)) (h : chainFrom co cur chunks) :
    chainFrom co (cur ++ b) chunks := by
  induction chunks with
  | nil => trivial
  | cons x rest ih =>
    obtain ⟨k, raw⟩ := x
    cases rest with
    | nil =>
      intro hk
      obtain ⟨hp, hs⟩ := h hk
      exact ⟨isPrefixOf_append b hp, pyStrip_append_ne_nil_left b hs⟩
    | cons y rest2 =>
      exact ⟨h.1, ih h.2⟩

theorem chainFrom_of_strip_nil (co : Nat) (cur newCur : List Char)
    (chunks : List (FlushKind × List Char)) (h : chainFrom co cur chunks)
    (hnil : pyStrip cur = []) : chainFrom co newCur chunks := by
  induction chunks with
  | nil => trivial
  | cons x rest ih =>
    obtain ⟨k, raw⟩ := x
    cases rest with
    | nil =>
      intro hk
      exact absurd hnil (h hk).2
    | cons y rest2 =>
      exact ⟨h.1, ih h.2⟩

theorem chainFrom_append (co : Nat) (cur newCur : List Char)
    (chunks : List (FlushKind × List Char)) (k : FlushKind)
    (hk : k = FlushKind.size →
      ((takeLast co cur).isPrefixOf newCur = true ∧ pyStrip newCur ≠ []))
    (h : chainFrom co cur chunks) :
    chainFrom co newCur (chunks ++ [(k, cur)]) := by
  induction chunks with
  | nil => exact hk
  | cons x rest ih =>
    obtain ⟨k0, raw0⟩ := x
    cases rest with
    | nil =>
      refine ⟨fun h0 => (h h0).1, hk⟩
    | cons y rest2 =>
      exact ⟨h.1, ih h.2⟩

theorem chainFrom_to_chainOK (co : Nat) (cur : List Char)
    (chunks : List (FlushKind × List Char)) (h : chainFrom co cur chunks) :
    chainOK co
      (if pyStrip cur = [] then chunks else chunks ++ [(FlushKind.final, cur)]) := by
  by_cases hnil : pyStrip cur = []
  · rw [if_pos hnil]
    induction chunks with
    | nil => trivial
    | cons x rest ih =>
      obtain ⟨k, raw⟩ := x
      cases rest with
      | nil =>
        intro hk
        exact absurd hnil (h hk).2
      | cons y rest2 =>
        exact ⟨h.1, ih h.2⟩
  · rw [if_neg hnil]
    induction chunks with
    | nil => exact fun h0 => by cases h0
    | cons x rest ih =>
      obtain ⟨k, raw⟩ := x
      cases rest with
      | nil =>
        exact ⟨fun h0 => (h h0).1, fun h0 => by cases h0⟩
      | cons y rest2 =>
        exact ⟨h.1, ih h.2⟩

theorem processBlock_chainFrom (cs co : Nat) (st : ChState) (b : List Char)
    (h : chainFrom co st.current st.chunks) :
    chainFrom co (processBlock cs co st b).current
      (processBlock cs co st b).chunks := by
  unfold processBlock
  by_cases h0 : pyStrip b = []
  · rw [if_pos h0]
    exact h
  · rw [if_neg h0]
    by_cases h1 : (matchBoundary (pyStrip b)).isSome = true
    · rw [if_pos h1]
      by_cases h2 : 7 * cs < 10 * st.current.length
      · rw [if_pos h2]
        unfold flushed
        by_cases h3 : pyStrip st.current = []
        · rw [if_pos h3]
          exact chainFrom_of_strip_nil co st.current b st.chunks h h3
        · rw [if_neg h3]
          exact chainFrom_append co st.current b st.chunks FlushKind.boundary
            (fun hcontra => by cases hcontra) h
      · rw [if_neg h2]
        exact chainFrom_extend co st.current b st.chunks h
    · rw [if_neg h1]
      by_cases h4 : cs < (st.current ++ b).length
      · rw [if_pos h4]
        unfold flushed
        by_cases h3 : pyStrip st.current = []
        · rw [if_pos h3]
          exact chainFrom_of_strip_nil co st.current _ st.chunks h h3
        · rw [if_neg h3]
          refine chainFrom_append co st.current _ st.chunks FlushKind.size
            (fun _ => ⟨?_, ?_⟩) h
          · exact isPrefixOf_append b (takeLast_isPrefixOf_overlap co st.current)
          · exact pyStrip_append_ne_nil_right _ h0
      · rw [if_neg h4]
        exact chainFrom_extend co st.current b st.chunks h

theorem foldl_chainFrom (cs co : Nat) (blocks : List (List Char)) (st : ChState)
    (h : chainFrom co st.current st.chunks) :
    chainFrom co (blocks.foldl (processBlock cs co) st).current
      (blocks.foldl (processBlock cs co) st).chunks := by
  induction blocks generalizing st with
  | nil => exact h
  | cons b bs ih => exact ih _ (processBlock_chainFrom cs co st b h)

/- ## Claim theorems -/

/-- C1: if retrieval returns zero fragments, `retrieve_context` returns
exactly the sentinel string, and on that sentinel `generate_response` never
invokes the generator chain: it returns the fixed refusal message. -/
theorem claim_C1_grounding (question : List Char) :
    retrieve_context [] = sentinel ∧
    generate_response_step sentinel question = GenOutcome.refusal ∧
    generate_response_from [] question = GenOutcome.refusal := by
  have h1 : retrieve_context [] = sentinel := rfl
  have h2 : generate_response_step sentinel question = GenOutcome.refusal := by
    unfold generate_response_step
    rw [if_pos (by decide : pyInStr no_context_marker sentinel = true)]
  refine ⟨h1, h2, ?_⟩
  unfold generate_response_from
  rw [h1]
  exact h2

/-- C5: the chunk classifier is a total function returning one of the nine
kinds, and agrees with the spec's priority-ordered first-match table
(resource, data, variable, output, provider, terraform, module, locals,
otherwise general) over the lowercased, trimmed fragment. -/
theorem claim_C5_classifier (chunk : List Char) :
    identify_chunk_type chunk = identify_chunk_type_spec chunk ∧
    identify_chunk_type chunk ∈ nineKinds := by
  unfold identify_chunk_type identify_chunk_type_spec chunkKindTable nineKinds
  dsimp only
  cases h1 : (chars "resource").isPrefixOf (pyStrip (pyLower chunk)) <;>
    cases h2 : (chars "data").isPrefixOf (pyStrip (pyLower chunk)) <;>
    cases h3 : (chars "variable").isPrefixOf (pyStrip (pyLower chunk)) <;>
    cases h4 : (chars "output").isPrefixOf (pyStrip (pyLower chunk)) <;>
    cases h5 : (chars "provider").isPrefixOf (pyStrip (pyLower chunk)) <;>
    cases h6 : (chars "terraform").isPrefixOf (pyStrip (pyLower chunk)) <;>
    cases h7 : (chars "module").isPrefixOf (pyStrip (pyLower chunk)) <;>
    cases h8 : (chars "locals").isPrefixOf (pyStrip (pyLower chunk)) <;>
    simp [List.find?, h1, h2, h3, h4, h5, h6, h7, h8]

/-- C9: `generate_response` decides the no-context case by substring
containment, not equality: any retrieved context containing the phrase
`"No relevant Terraform configuration found"` anywhere makes it skip the
generator chain and return the fixed refusal. -/
theorem claim_C9_substring_refusal (context question : List Char)
    (h : pyInStr no_context_marker context = true) :
    generate_response_step context question = GenOutcome.refusal := by
  unfold generate_response_step
  rw [if_pos h]

/-- C9 witness: a context assembled from one actually-retrieved fragment
whose text merely mentions the phrase is not the sentinel, yet still
triggers the refusal. -/
theorem claim_C9_witness :
    pyInStr no_context_marker (retrieve_context [trickyDoc]) = true ∧
    retrieve_context [trickyDoc] ≠ sentinel ∧
    generate_response_step (retrieve_context [trickyDoc]) (chars "how") =
      GenOutcome.refusal :=
  ⟨by decide, by decide, claim_C9_substring_refusal _ _ (by decide)⟩

/-- C7: `load_terraform_files` fails if and only if the directory is missing
or it contains zero supported files; per-file read results never make it
raise (they are skipped), which the iff shows since the right side does not
mention any `read_result` or `load_result`. -/
theorem claim_C7_loader_errors (fs : TfDirState) :
    (∃ e, load_terraform_files fs = Except.error e) ↔
      (fs.dir_exists = false ∨ (fs.tf_files = [] ∧ fs.pdf_files = [])) := by
  unfold load_terraform_files
  by_cases h1 : fs.dir_exists = false
  · simp [h1]
  · rw [if_neg h1]
    by_cases h2 : (fs.tf_files.isEmpty && fs.pdf_files.isEmpty) = true
    · rw [if_pos h2]
      simp only [Bool.and_eq_true, List.isEmpty_iff] at h2
      simp [h1, h2]
    · rw [if_neg h2]
      simp only [Bool.and_eq_true, List.isEmpty_iff] at h2
      simp [h1, h2]

/-- C3: the claim says a two-label header such as `resource "t" "n" \x7b` is
recognized as a boundary.  It is not: the regex's first alternative demands
exactly one quoted label before the brace, so the two-label header of every
real `resource`/`data` block fails to match (at any position), while a
one-label header does match.  This contradicts the function's own docstring
("Split on resource/data block boundaries"). -/
theorem claim_C3_two_label_not_boundary :
    matchBoundary twoLabelHeader = none ∧
    splitScanList twoLabelHeader = [twoLabelHeader] ∧
    (matchBoundary oneLabelHeader).isSome = true ∧
    (matchBoundary (chars "terraform \x7b")).isSome = true := by decide

/-- C8: the claim says every fragment is a contiguous substring of its
source document (modulo overlap carry-over and edge trimming).  On
`tfBlockDoc` — one `terraform` block, no size-driven flush, no trimming at
either edge — the doubled capture group of `re.split(f'({block_pattern})')`
makes the single emitted fragment contain the header twice, so it occurs
nowhere in the source document. -/
theorem claim_C8_fragment_not_substring :
    terraform_aware_split tfBlockDoc 1000 100 =
      [chars "terraform \x7bterraform \x7b" ++ tfBlockDoc.drop 11] ∧
    (∀ c ∈ terraform_aware_split tfBlockDoc 1000 100, pyInStr c tfBlockDoc = false) := by
  decide

/-- C2 counterexample: `tfBlockDoc` is 70 characters (≤ `chunkSize = 1000`),
its trimmed form is over the 50-character floor, yet the chunker does not
return the single trimmed fragment the claim requires: the emitted fragment
has the block header duplicated. -/
theorem claim_C2_counterexample :
    tfBlockDoc.length ≤ 1000 ∧ 50 < (pyStrip tfBlockDoc).length ∧
    terraform_aware_split tfBlockDoc 1000 100 ≠ [pyStrip tfBlockDoc] := by decide

/-- C2 (amended): for input in which the boundary scan finds no block-header
match (neither inside the text nor at the head of its trimmed form) and
whose total length is at most `chunkSize`, the chunker returns exactly one
fragment equal to the whitespace-trimmed input; when the trimmed input falls
under the 50-character floor the fallback returns the original text
unchanged.  (The claim as frozen also covered boundary-containing inputs;
`claim_C2_counterexample` refutes that.) -/
theorem claim_C2_single_fragment (content : List Char) (chunkSize chunkOverlap : Nat)
    (hscan : splitScanList content = [content])
    (hnb : matchBoundary (pyStrip content) = none)
    (hlen : content.length ≤ chunkSize) :
    terraform_aware_split content chunkSize chunkOverlap =
      if 50 < (pyStrip content).length then [pyStrip content] else [content] := by
  unfold terraform_aware_split tfSplitChunks tfSplitTagged
  rw [hscan]
  simp only [List.foldl]
  by_cases hempty : pyStrip content = []
  · have h0 : pyStrip ([] : List Char) = [] := rfl
    simp [processBlock, flushed, hempty, h0]
  · have hlt : ¬ chunkSize < content.length := by omega
    simp only [processBlock, if_neg hempty, hnb, Option.isSome_none,
      Bool.false_eq_true, if_false, flushed, List.nil_append, if_neg hlt,
      if_neg hempty, List.map_cons, List.map_nil]
    by_cases h50 : 50 < (pyStrip content).length
    · simp [List.filter, h50]
    · simp [List.filter, h50]

/-- C2 witness: a 62-character boundary-free document with the default
parameters. -/
theorem claim_C2_witness :
    terraform_aware_split plainDoc 1000 100 =
      if 50 < (pyStrip plainDoc).length then [pyStrip plainDoc] else [plainDoc] :=
  claim_C2_single_fragment plainDoc 1000 100 (by decide) (by decide) (by decide)

/-- C10: `_terraform_aware_split` always returns a non-empty list (the
fallback returns the whole text when the minimum-size filter removes every
candidate); hence a document set containing at least one `.tf` Terraform
document yields at least one fragment from `split_documents`, and the
zero-fragment failure branch of `create_vector_store` is not taken. -/
theorem claim_C10_nonempty :
    (∀ content chunkSize chunkOverlap,
      terraform_aware_split content chunkSize chunkOverlap ≠ []) ∧
    (∀ (flatSplit : List Char → List (List Char)) (docs : List LoadedDoc)
        (chunkSize chunkOverlap : Nat),
      (∃ d ∈ docs, usesTerraformSplit d = true) →
        split_documents flatSplit docs chunkSize chunkOverlap ≠ [] ∧
        create_vector_store_guard (split_documents flatSplit docs chunkSize chunkOverlap) =
          Except.ok (split_documents flatSplit docs chunkSize chunkOverlap)) := by
  have h1 : ∀ content chunkSize chunkOverlap,
      terraform_aware_split content chunkSize chunkOverlap ≠ [] := by
    intro content cs co
    unfold terraform_aware_split
    by_cases h : (tfSplitChunks content cs co).filter (fun c => 50 < c.length) = []
    · rw [if_pos h]
      exact List.cons_ne_nil _ _
    · rw [if_neg h]
      exact h
  refine ⟨h1, ?_⟩
  intro flatSplit docs cs co hex
  obtain ⟨d, hd, htf⟩ := hex
  have hne : split_documents flatSplit docs cs co ≠ [] := by
    have hchunks : (if usesTerraformSplit d then
        terraform_aware_split d.page_content cs co else flatSplit d.page_content) ≠ [] := by
      rw [if_pos htf]
      exact h1 _ _ _
    have hfd : ((if usesTerraformSplit d then
        terraform_aware_split d.page_content cs co else flatSplit d.page_content).enum.map
          (fun p => ({ page_content := p.2, source := d.source, file_type := d.file_type
                       chunk := p.1, chunk_type := identify_chunk_type p.2 } : SplitDoc))) ≠ [] := by
      intro h0
      apply hchunks
      have := congrArg List.length h0
      rw [List.length_map, List.enum_length] at this
      exact List.length_eq_zero.mp this
    obtain ⟨y, hy⟩ := List.exists_mem_of_ne_nil _ hfd
    have hmem : y ∈ split_documents flatSplit docs cs co := by
      unfold split_documents
      exact List.mem_flatMap.mpr ⟨d, hd, hy⟩
    exact List.ne_nil_of_mem hmem
  refine ⟨hne, ?_⟩
  unfold create_vector_store_guard
  rw [if_neg hne]

/-- C10 witness: a singleton document set holding one `.tf` document. -/
theorem claim_C10_witness :
    split_documents (fun _ => []) [mainTfDoc] 1000 100 ≠ [] ∧
    create_vector_store_guard (split_documents (fun _ => []) [mainTfDoc] 1000 100) =
      Except.ok (split_documents (fun _ => []) [mainTfDoc] 1000 100) :=
  claim_C10_nonempty.2 (fun _ => []) [mainTfDoc] 1000 100
    ⟨mainTfDoc, List.mem_singleton.mpr rfl, by decide⟩

theorem dictGet_dictAppend (d : List (List Char × List (List Char)))
    (k v t : List Char) :
    dictGet (dictAppend d k v) t =
      if t = k then dictGet d t ++ [v] else dictGet d t := by
  induction d with
  | nil =>
    by_cases h : k = t
    · subst h
      simp [dictAppend, dictGet]
    · have h2 : ¬ t = k := fun hh => h hh.symm
      simp [dictAppend, dictGet, h, h2]
  | cons p rest ih =>
    obtain ⟨k0, vs⟩ := p
    by_cases hk : k0 = k
    · subst hk
      by_cases h0 : k0 = t
      · subst h0
        simp [dictAppend, dictGet]
      · have h2 : ¬ t = k0 := fun hh => h0 hh.symm
        simp [dictAppend, dictGet, h0, h2]
    · by_cases h0 : k0 = t
      · subst h0
        have h2 : ¬ k0 = k := hk
        have h3 : ¬ k0 = k := hk
        simp [dictAppend, dictGet, hk, fun hh : k0 = k => hk hh]
      · simp [dictAppend, dictGet, hk, h0, ih]

theorem dictGet_foldl (entries : List (List Char × List Char))
    (d : List (List Char × List (List Char))) (t : List Char) :
    dictGet (entries.foldl (fun d p => dictAppend d p.1 p.2) d) t =
      dictGet d t ++ (entries.filter (fun p => p.1 = t)).map Prod.snd := by
  induction entries generalizing d with
  | nil => simp
  | cons p rest ih =>
    obtain ⟨k, v⟩ := p
    simp only [List.foldl_cons]
    rw [ih, dictGet_dictAppend]
    by_cases h : t = k
    · subst h
      simp [List.filter]
    · have h2 : ¬ k = t := fun hh => h hh.symm
      simp [List.filter, h, h2]

/-- C6: the inventory query deduplicates the variable, output and provider
name collections (each name appears at most once, and appears iff it is
matched in some document), but does not deduplicate resource `(type, name)`
pairs: the list under each type key is exactly the scan-ordered list of all
matched occurrences of that type across all documents. -/
theorem claim_C6_inventory (docs : List (List Char)) :
    (get_resources_summary docs).variables_list.Nodup ∧
    (∀ name, name ∈ (get_resources_summary docs).variables_list ↔
      ∃ c ∈ docs, name ∈ findAllNames (chars "variable") c) ∧
    (get_resources_summary docs).outputs.Nodup ∧
    (∀ name, name ∈ (get_resources_summary docs).outputs ↔
      ∃ c ∈ docs, name ∈ findAllNames (chars "output") c) ∧
    (get_resources_summary docs).providers.Nodup ∧
    (∀ name, name ∈ (get_resources_summary docs).providers ↔
      ∃ c ∈ docs, name ∈ findAllNames (chars "provider") c) ∧
    (∀ ty, dictGet (get_resources_summary docs).resource_types ty =
      (((docs.map findAllResources).flatten).filter (fun p => p.1 = ty)).map
        Prod.snd) := by
  unfold get_resources_summary pySetList
  refine ⟨List.nodup_dedup _, ?_, List.nodup_dedup _, ?_, List.nodup_dedup _, ?_, ?_⟩
  · intro name
    rw [List.mem_dedup, List.mem_flatten]
    simp
  · intro name
    rw [List.mem_dedup, List.mem_flatten]
    simp
  · intro name
    rw [List.mem_dedup, List.mem_flatten]
    simp
  · intro ty
    rw [dictGet_foldl]
    simp [dictGet]

/-- C4 counterexample: on `overlapDoc` with `chunk_size = 60`,
`chunk_overlap = 2`, the first output fragment is emitted by a size-driven
flush and is 52 ≥ 2 characters long, yet its last two characters `" \x7b"` are
not a prefix of the adjacent next fragment: the source takes the overlap
slice from the UNtrimmed buffer, then `strip()`s both the emitted fragment
and (at emission) the successor, which here removes the leading space of the
carried-over text. -/
theorem claim_C4_counterexample :
    (tfSplitTagged overlapDoc 60 2).map Prod.fst =
      [FlushKind.size, FlushKind.final] ∧
    terraform_aware_split overlapDoc 60 2 =
      [chars "## gcp project baseline notes\nterraform \x7bterraform \x7b",
       chars "\x7b\n# pin plugin and binary release lines for gcp usage here ok"] ∧
    2 ≤ (chars "## gcp project baseline notes\nterraform \x7bterraform \x7b").length ∧
    (takeLast 2 (chars "## gcp project baseline notes\nterraform \x7bterraform \x7b")).isPrefixOf
      (chars "\x7b\n# pin plugin and binary release lines for gcp usage here ok") = false := by
  decide

/-- C4 (amended): the overlap property holds on the chunker's untrimmed
buffers.  For every input and parameters, whenever a fragment is emitted by
the size-driven flush, a next fragment follows and the last `chunkOverlap`
characters of the flushed buffer are a prefix of that next fragment's
buffer; the source emits each buffer whitespace-trimmed, and that trimming
(as `claim_C4_counterexample` shows) can break the literal prefix relation
on the emitted fragments. -/
theorem claim_C4_overlap (content : List Char) (chunkSize chunkOverlap : Nat) :
    chainOK chunkOverlap (tfSplitTagged content chunkSize chunkOverlap) := by
  unfold tfSplitTagged flushed
  exact chainFrom_to_chainOK chunkOverlap _ _
    (foldl_chainFrom chunkSize chunkOverlap (splitScanList content)
      { chunks := [], current := [] } trivial)

end TerraformRag
